import Mathlib

/-!
Shallow embedding of the pyslash slash-command dispatch layer
(`pyslash/slash_command.py` and `pyslash/patcher.py`).

Python dicts carrying fixed keys are modelled as structures; JSON values that
flow through argument conversion are modelled by the inductive `Value`;
Python exceptions are modelled by `Except PyError`.  Functions that in the
source receive the `bot` object only to materialise discord entities
(`bot._get_state()`, `bot.get_guild(...)`) take the raw interaction payload
instead and return the resolved side-table data; the discord object
construction itself is host-library code and carries no logic of this
repository.
-/

namespace Pyslash

/-- A channel object from the `resolved` side table of an interaction payload
(the fields `_text_channel_converter` / `_category_channel_converter` read). -/
structure ChannelData where
  guild_id : Option String
  chanType : Nat
  deriving DecidableEq

/-- JSON-ish values flowing through the converter pipeline.  `vNone` models
Python's `None`; the entity constructors model the discord objects the entity
converters build from the resolved side table. -/
inductive Value where
  | vNone
  | vStr (s : String)
  | vInt (n : Int)
  | vBool (b : Bool)
  | vUser (data : String)
  | vMember (data : String)
  | vTextChannel (data : ChannelData)
  | vCategoryChannel (data : ChannelData)
  | vRole (data : String)
  | vObj (id : Int)
  deriving DecidableEq

/-- One entry of an inbound `options` list:
`{"name": ..., "type": ..., "value": ..., "options": [...]}`.
`value = none` covers both a missing `"value"` key and a JSON null, matching
`arg.get("value") is None` in the source; `options` defaults to `[]` where the
key is absent (the source only reads it on the sub-command path). -/
inductive OptionPayload where
  | mk (name : String) (optType : Nat) (value : Option Value)
       (options : List OptionPayload)

def OptionPayload.name : OptionPayload → String
  | .mk n _ _ _ => n

def OptionPayload.optType : OptionPayload → Nat
  | .mk _ t _ _ => t

def OptionPayload.value : OptionPayload → Option Value
  | .mk _ _ v _ => v

def OptionPayload.options : OptionPayload → List OptionPayload
  | .mk _ _ _ o => o

/-- The `resolved` side table of an interaction payload, keyed by snowflake id.
User/member/role blobs are abstracted to strings (their content is only passed
through to discord object constructors). -/
structure ResolvedTable where
  users : List (String × String) := []
  members : List (String × String) := []
  channels : List (String × ChannelData) := []
  roles : List (String × String) := []
  deriving DecidableEq

/-- The `data` dict of an interaction payload: `{"name": ..., "options": [...],
"resolved": {...}}`. -/
structure InteractionData where
  name : String
  options : List OptionPayload
  resolved : ResolvedTable := {}

/-- The `d` dict of an `INTERACTION_CREATE` gateway event
(`{type, data, id, token, channel_id, guild_id, member?, user?}`). -/
structure Payload where
  payloadType : Nat
  data : InteractionData
  id : String
  token : String
  channel_id : String
  guild_id : String
  member : Option String := none
  user : Option String := none

/-- The Python exceptions raised by this repository's code paths. -/
inductive PyError where
  | badArgument (msg : String)
  | typeError (msg : String)
  | recursionError (msg : String)
  | checkFailure (msg : String)
  | commandNotFound (msg : String)
  | keyError (key : String)
  | indexError
  | valueError (msg : String)
  | notImplementedError (msg : String)
  deriving DecidableEq

/-- Python `dict` lookup (`d.get(k)` / `d[k]` with a hit), over the assoc-list
model of a dict.  Keys are unique because insertion overwrites. -/
def dictGet {α : Type} : List (String × α) → String → Option α
  | [], _ => none
  | (k', v) :: rest, k => if k' = k then some v else dictGet rest k

/-- Python `d[k] = v`: overwrite in place if the key exists, else append. -/
def dictInsert {α : Type} : List (String × α) → String → α → List (String × α)
  | [], k, v => [(k, v)]
  | (k', v') :: rest, k, v =>
    if k' = k then (k, v) :: rest else (k', v') :: dictInsert rest k v

/-- Python `del d[k]` minus the `KeyError` (raised by the caller `unload_command`,
see `unloadCommand`): removes the unique binding of `k`. -/
def dictDelete {α : Type} : List (String × α) → String → List (String × α)
  | [], _ => []
  | (k', v) :: rest, k => if k' = k then rest else (k', v) :: dictDelete rest k

/-- Looking up a raw option value as a dict key: the resolved tables are keyed
by snowflake strings, so only a string value can hit. -/
def lookupRaw {α : Type} (table : List (String × α)) : Value → Option α
  | .vStr s => dictGet table s
  | _ => none

/-- Python `int(arg)` as used on raw option values: parses strings, passes ints
through, coerces bools; anything else is a `TypeError`.  A non-numeric string
raises `ValueError`. -/
def toPyInt : Value → Except PyError Int
  | .vInt n => .ok n
  | .vBool b => .ok (if b then 1 else 0)
  | .vStr s =>
    match s.toInt? with
    | some n => .ok n
    | none => .error (.valueError "invalid literal for int() with base 10")
  | _ => .error (.typeError "int() argument must be a string or a number")

/-! ## Converters (`slash_command.py` lines 16-77)

Each converter takes the raw interaction payload (the source passes `ctx_data`)
and the raw option value.  The `bot` parameter of the source converters is used
only to materialise discord objects and is dropped. -/

/-- `_nothing_converter`: returns the argument unchanged. -/
def nothingConverter (_ctx : Payload) (arg : Value) : Except PyError Value :=
  .ok arg

/-- `_user_converter`: resolves the snowflake in `resolved.users`, else
`BadArgument`. -/
def userConverter (ctx : Payload) (arg : Value) : Except PyError Value :=
  match lookupRaw ctx.data.resolved.users arg with
  | none => .error (.badArgument "User specified is not someone the bot can see.")
  | some u => .ok (.vUser u)

/-- `_member_converter`: resolves in `resolved.members`, else `BadArgument`;
then reads `resolved["users"][arg]` with plain indexing, so a member without a
matching users entry raises `KeyError`. -/
def memberConverter (ctx : Payload) (arg : Value) : Except PyError Value :=
  match lookupRaw ctx.data.resolved.members arg with
  | none => .error (.badArgument "User specified is not a member.")
  | some m =>
    match lookupRaw ctx.data.resolved.users arg with
    | none => .error (.keyError "users")
    | some _ => .ok (.vMember m)

/-- `_text_channel_converter`: the channel must resolve, sit in this guild and
have channel type 0. -/
def textChannelConverter (ctx : Payload) (arg : Value) : Except PyError Value :=
  match lookupRaw ctx.data.resolved.channels arg with
  | none => .error (.badArgument "Channel not in this guild.")
  | some ch =>
    if ch.guild_id ≠ some ctx.guild_id then
      .error (.badArgument "Channel not in this guild.")
    else if ch.chanType ≠ 0 then
      .error (.badArgument "This is not a text channel.")
    else .ok (.vTextChannel ch)

/-- `_category_channel_converter`: as the text-channel converter with channel
type 4. -/
def categoryChannelConverter (ctx : Payload) (arg : Value) : Except PyError Value :=
  match lookupRaw ctx.data.resolved.channels arg with
  | none => .error (.badArgument "Channel not in this guild.")
  | some ch =>
    if ch.guild_id ≠ some ctx.guild_id then
      .error (.badArgument "Channel not in this guild.")
    else if ch.chanType ≠ 4 then
      .error (.badArgument "This is not a category channel.")
    else .ok (.vCategoryChannel ch)

/-- `_role_converter`: plain indexing `resolved["roles"][arg]`, so a missing
role raises `KeyError` (not `BadArgument`). -/
def roleConverter (ctx : Payload) (arg : Value) : Except PyError Value :=
  match lookupRaw ctx.data.resolved.roles arg with
  | none => .error (.keyError "roles")
  | some r => .ok (.vRole r)

/-- `_mentionable_converter`: `discord.Object(id=int(arg))`; the `int()` call
can raise `ValueError`/`TypeError`, which propagates. -/
def mentionableConverter (_ctx : Payload) (arg : Value) : Except PyError Value :=
  match toPyInt arg with
  | .ok n => .ok (.vObj n)
  | .error e => .error e

/-! ## Type annotations and the converter registry -/

/-- A Python type annotation as it can appear on a handler parameter.

`typing.Optional[T]` never appears as its own constructor: at annotation
construction time Python normalises it to `typing.Union[T, NoneType]`, and the
`__origin__` of any such subscripted union is `typing.Union`.  Consequently the
source's `if x is typing.Optional` branch (line 200) can never fire and has no
counterpart here.

`pyCustom c` models any other type: `c = some f` when the type exposes a
`convert` attribute (the `discord.ext.commands` converter contract, with `f`
the converter's behaviour on this payload/value model), `c = none` otherwise.
`pyContext`/`pyCommandsContext` are the `Context` classes accepted for the
leading handler parameter (neither has a `convert` attribute). -/
inductive PyType where
  | pyStr
  | pyInt
  | pyBool
  | pyUser
  | pyMember
  | pyTextChannel
  | pyCategoryChannel
  | pyRole
  | pyObject
  | pyNoneType
  | pyUnion (args : List PyType)
  | pyGreedy (inner : PyType)
  | pyContext
  | pyCommandsContext
  | pyCustom (convert : Option (Payload → Value → Except PyError Value))

/-- A converter function together with its `_required` attribute as read by
`getattr(converter_function, "_required", True)`: plain functions lack the
attribute, so the field defaults to `true`; `_is_typing_optional` sets it to
`false`. -/
structure ConvFn where
  run : Payload → Value → Except PyError Value
  required : Bool := true

/-- The `_arg_types` dict (lines 67-77): declared type ↦ (platform type id,
converter).  `_wrap_arg_handler_async` only adds an `async` wrapper and is the
identity here. -/
def argTypesGet : PyType → Option (ConvFn × Nat)
  | .pyStr => some (⟨nothingConverter, true⟩, 3)
  | .pyInt => some (⟨nothingConverter, true⟩, 4)
  | .pyBool => some (⟨nothingConverter, true⟩, 5)
  | .pyUser => some (⟨userConverter, true⟩, 6)
  | .pyMember => some (⟨memberConverter, true⟩, 6)
  | .pyTextChannel => some (⟨textChannelConverter, true⟩, 7)
  | .pyCategoryChannel => some (⟨categoryChannelConverter, true⟩, 7)
  | .pyRole => some (⟨roleConverter, true⟩, 8)
  | .pyObject => some (⟨mentionableConverter, true⟩, 9)
  | _ => none

/-- What `_get_converter_function` produces when applied to the bare
`typing.Union` special form.  This is the recursive call the union branch
actually makes: line 225 reads `_get_converter_function(x)` where `x` is
`converter_type.__origin__` (i.e. `typing.Union` itself), not the branch type
`arg` of the current loop iteration.  `typing.Union` is not a key of
`_arg_types`, has no `__origin__` attribute and no `convert` attribute, so the
cascade falls through to the final `TypeError` (line 301). -/
def convUnionForm : Except PyError (ConvFn × Nat) :=
  .error (.typeError "The argument type is not discord.ext.commands compatible.")

/-- `isinstance(arg, type(None))` on a member of `Union[...].__args__`: the
members are type objects (`int`, `str`, `NoneType`, ...), and no type object is
an *instance* of `NoneType`, so this test is always false — `NoneType` itself
is not filtered out. -/
def isinstanceNoneType (_t : PyType) : Bool := false

/-- `arg is discord.Object`. -/
def isDiscordObject : PyType → Bool
  | .pyObject => true
  | _ => false

/-- Python `set.add` on the `arg_type` set, modelled as a duplicate-free list
(insertion order retained to keep the model executable; the source's set is
unordered, which matters nowhere because every completed run leaves
`converters` empty — see `unionLoop_converters_nil`). -/
def insertTypeId (n : Nat) (s : List Nat) : List Nat :=
  if n ∈ s then s else s ++ [n]

/-- State of the union branch's loop over `converter_type.__args__`
(lines 208-229): `required`, `discord_obj_fallback`, the `arg_type` set and the
`converters` list. -/
structure UnionLoopState where
  required : Bool
  discordObjFallback : Bool
  argType : List Nat
  converters : List (ConvFn × Nat)

/-- The loop over `converter_type.__args__` (lines 212-229).  Each iteration
either filters the member (the dead `isinstance` test, or `discord.Object`) or
performs the recursive call of line 225 — which is `convUnionForm`, because the
source passes the loop-invariant `x` rather than the member `arg`. -/
def unionLoop : List PyType → UnionLoopState → Except PyError UnionLoopState
  | [], st => .ok st
  | a :: rest, st =>
    if isinstanceNoneType a then
      unionLoop rest { st with required := false }
    else if isDiscordObject a then
      unionLoop rest { st with discordObjFallback := true }
    else
      match convUnionForm with
      | .error e => .error e
      | .ok (cf, tid) =>
        unionLoop rest { st with
          argType := insertTypeId tid st.argType
          converters := st.converters ++ [(cf, tid)] }

/-- `_is_typing_optional`: wraps a converter and tags it `_required = False`.
In the source this helper is itself declared `async` and neither call site
awaits it, so at runtime the call sites would receive a coroutine object; both
call sites (lines 204 and 242) are unreachable — the first because no
annotation has `__origin__ = typing.Optional`, the second because `converters`
is always empty (see `unionLoop_converters_nil`).  We model the intended
wrapper. -/
def isTypingOptionalWrap (cf : ConvFn) : ConvFn :=
  { run := cf.run, required := false }

/-- The retrying processor built by `single_type_processor` (lines 249-255):
try each converter in order, swallowing only `BadArgument`, then run the
`last` converter without catching anything. -/
def tryConverters (convs : List (ConvFn × Nat))
    (lastF : Payload → Value → Except PyError Value)
    (ctx : Payload) (arg : Value) : Except PyError Value :=
  match convs with
  | [] => lastF ctx arg
  | (c, _) :: rest =>
    match c.run ctx arg with
    | .ok v => .ok v
    | .error (.badArgument _) => tryConverters rest lastF ctx arg
    | .error e => .error e

/-- `parse_single_type` (lines 246-266).  With `discord_obj_fallback` set, an
ID-less popped type id (3/4/5) is a `TypeError` and otherwise the mentionable
converter becomes the uncaught fallback; without it, `converters.pop()` makes
the final converter the uncaught fallback for the preceding ones.

The source returns the mutated `arg_type` *set object* in the type-id slot
(and its caller on line 289 additionally wraps the pair in another tuple);
since both callers sit on dead code paths (`converters` is provably empty by
the time they could run), the translation returns the scalar id that the
surrounding code expects. -/
def parseSingleType (st : UnionLoopState) (argTypePopped : Nat) :
    Except PyError (ConvFn × Nat) :=
  if st.discordObjFallback then
    if argTypePopped = 3 ∨ argTypePopped = 4 ∨ argTypePopped = 5 then
      .error (.typeError "Argument type not ID\x27able.")
    else
      .ok (⟨tryConverters st.converters mentionableConverter, true⟩, argTypePopped)
  else
    match st.converters.getLast? with
    | none => .error .indexError
    | some lastC =>
      .ok (⟨tryConverters st.converters.dropLast lastC.1.run, true⟩, argTypePopped)

/-- The `transform_int` wrapper of lines 279-284: coerce the raw value with
`int(...)`, turning a `ValueError` into `BadArgument`, then delegate to the
original integer-branch converter. -/
def transformInt (origin : Payload → Value → Except PyError Value)
    (ctx : Payload) (arg : Value) : Except PyError Value :=
  match toPyInt arg with
  | .ok n => origin ctx (.vInt n)
  | .error (.valueError _) => .error (.badArgument "Unable to parse int.")
  | .error e => .error e

/-- `arg_type == {3, 4}` — set equality against `{3, 4}`, over the
duplicate-free list model of the set. -/
def eqSet34 (l : List Nat) : Bool :=
  l.length = 2 && 3 ∈ l && 4 ∈ l

/-- The `typing.Union` branch of `_get_converter_function` (lines 206-292). -/
def unionBranch (args : List PyType) : Except PyError (ConvFn × Nat) :=
  match unionLoop args ⟨true, false, [], []⟩ with
  | .error e => .error e
  | .ok st =>
    match st.converters with
    | [] => .error (.typeError "No converters in union.")
    | [(cf, tid)] =>
      if !st.required then .ok (isTypingOptionalWrap cf, tid) else .ok (cf, tid)
    | _ =>
      if st.argType.length = 1 then
        -- line 270: all branches share one platform type id
        parseSingleType st (st.argType.headD 0)
      else if eqSet34 st.argType then
        -- lines 273-289: the int/str fallback.  (The source's `transform_int`
        -- closure late-binds `origin`; with at most one integer branch in a
        -- union this coincides with the per-element rewrite used here, and the
        -- path is dead regardless.)
        let convs := st.converters.map fun ct =>
          if ct.2 = 4 then (⟨transformInt ct.1.run, ct.1.required⟩, ct.2) else ct
        match parseSingleType { st with converters := convs } 3 with
        | .error e => .error e
        | .ok (cf, _) => .ok (cf, 3)
      else
        .error (.typeError "Unsupported fallback")

/-- `_get_converter_function` (lines 187-306).  The cascade: the `_arg_types`
dict first; then the `__origin__` tests (`typing.Optional` can never match, see
`PyType`; `typing.Union` enters the union branch; a subscripted `Greedy` is
rejected); finally the `convert`-attribute compatibility layer, whose absence
is the closing `TypeError`.  The union branch's recursive call is on the
`typing.Union` special form itself (`convUnionForm`), which is why this
function needs no recursion. -/
def getConverterFunction (t : PyType) : Except PyError (ConvFn × Nat) :=
  match argTypesGet t with
  | some (cf, tid) => .ok (cf, tid)
  | none =>
    match t with
    | .pyUnion args => unionBranch args
    | .pyGreedy _ =>
      .error (.typeError "commands.Greedy is not supported with slash commands.")
    | .pyCustom (some conv) =>
      -- `compat_layer` wraps the payload in a `CommandsContext` and calls the
      -- type's own `convert`; the context construction carries no logic, so
      -- the layer is the converter itself here.
      .ok (⟨conv, true⟩, 3)
    | _ => .error (.typeError "The argument type is not discord.ext.commands compatible.")

/-! ## CommandsContext and the reply channel (`slash_command.py` lines 119-171)

The `CommandsMessage`/channel materialisation inside `CommandsContext.__init__`
builds host-library discord objects out of payload fields and carries no
dispatch logic; the context model keeps the payload itself plus the two flags
the reply protocol reads. -/

structure CommandsContext where
  ctxData : Payload
  firstReply : Bool
  ephemeral : Bool

/-- `CommandsContext.__init__`: `_first_reply = True`, `ephemeral = False`. -/
def CommandsContext.init (ctxData : Payload) : CommandsContext :=
  ⟨ctxData, true, false⟩

abbrev EmbedData := String

abbrev AllowedMentions := String

/-- The keyword arguments `reply` reads. -/
structure ReplyKwargs where
  tts : Bool := false
  embeds : Option (List EmbedData) := none
  embed : Option EmbedData := none
  allowed_mentions : Option AllowedMentions := none
  deriving DecidableEq

/-- The JSON body of the initial interaction callback
(`{"type": 4, "data": {...}}`); absent optional keys are `none`. -/
structure CallbackBody where
  bodyType : Nat
  tts : Bool
  flags : Option Nat
  content : Option String
  embeds : Option (List EmbedData)
  allowed_mentions : Option AllowedMentions
  deriving DecidableEq

/-- The outbound requests the reply channel can make: the time-boxed initial
callback `POST /interactions/{id}/{token}/callback`, or the follow-up message
path delegated to `super().reply`. -/
inductive HttpRequest where
  | initialCallback (interactionId : String) (token : String) (body : CallbackBody)
  | followUp (content : Option String) (kwargs : ReplyKwargs)
  deriving DecidableEq

/-- `if content:` — `None` and the empty string are falsy. -/
def truthyContent : Option String → Bool
  | none => false
  | some s => !s.isEmpty

/-- The `data` dict assembled by the first-reply path (lines 143-163): `tts`
always, a 64 flag when `ephemeral`, `content` when truthy, `embeds` from the
plural keyword (when a non-empty list) overridden by the singular `embed`
keyword, and `allowed_mentions` when given (embed/allowed-mentions objects are
truthy whenever present). -/
def replyBody (ctx : CommandsContext) (content : Option String)
    (kw : ReplyKwargs) : CallbackBody :=
  { bodyType := 4
    tts := kw.tts
    flags := if ctx.ephemeral then some 64 else none
    content := if truthyContent content then content else none
    embeds :=
      match kw.embed with
      | some e => some [e]
      | none =>
        match kw.embeds with
        | some l => if l.isEmpty then none else some l
        | none => none
    allowed_mentions := kw.allowed_mentions }

/-- `CommandsContext.reply` (lines 130-171): with `_first_reply` still set,
issue the initial callback against `(ctx_data["id"], ctx_data["token"])` and
clear the flag; otherwise delegate to the normal follow-up path with no state
change. -/
def CommandsContext.reply (ctx : CommandsContext) (content : Option String)
    (kw : ReplyKwargs) : HttpRequest × CommandsContext :=
  if !ctx.firstReply then
    (.followUp content kw, ctx)
  else
    (.initialCallback ctx.ctxData.id ctx.ctxData.token (replyBody ctx content kw),
     { ctx with firstReply := false })

/-- `CommandsContext.reinvoke` (lines 127-128): always raises
`NotImplementedError`. -/
def CommandsContext.reinvoke (_ctx : CommandsContext) : Except PyError Unit :=
  .error (.notImplementedError "This is not implemented in slash commands.")

/-! ## Checks (`slash_command.py` lines 325-350) -/

/-- An authorization check as registered on the bot or the handler, tagged by
whether `asyncio.iscoroutinefunction` holds for it. -/
inductive CheckFn where
  | sync (f : CommandsContext → Except PyError Bool)
  | coro (f : CommandsContext → Except PyError Bool)

/-- The host bot, reduced to the attributes this repository reads:
`bot._checks` (global pre-checks) and `bot._check_once`. -/
structure Bot where
  checks : List CheckFn := []
  checkOnce : List CheckFn := []

/-- What a call to the replacement `wrapper` of lines 344-346 evaluates.  The
wrapper's body `return c(ctx)` closes over the loop variable `c`, which after
the loop holds the *last* element of the checks list, so every wrapper calls
that last check: if it is a plain function the wrapper returns its result; if
it is a coroutine function, `c(ctx)` is an un-awaited coroutine object, which
is truthy, so the check passes. -/
def wrapperCall (lastCell : Option CheckFn) (ctx : CommandsContext) :
    Except PyError Bool :=
  match lastCell with
  | some (.sync f) => f ctx
  | some (.coro _) => .ok true
  | none => .ok true

/-- `_get_checks`: collect `bot._checks`, then `bot._check_once`, then the
handler's `__commands_checks__` reversed in place; finally replace every
non-coroutine entry by the late-binding `wrapper` (see `wrapperCall`). -/
def getChecks (bot : Bot) (handlerChecks : List CheckFn) :
    List (CommandsContext → Except PyError Bool) :=
  let checks := bot.checks ++ bot.checkOnce ++ handlerChecks.reverse
  checks.map fun c =>
    match c with
    | .coro f => f
    | .sync _ => wrapperCall checks.getLast?

/-- The check loop of `execute` (lines 373-376): run the (wrapped) checks in
order; the first falsy result raises `CheckFailure` naming the command. -/
def runChecks (checks : List (CommandsContext → Except PyError Bool))
    (ctx : CommandsContext) (name : String) : Except PyError Unit :=
  match checks with
  | [] => .ok ()
  | c :: rest =>
    match c ctx with
    | .error e => .error e
    | .ok b =>
      if !b then
        .error (.checkFailure ("The check functions for command " ++ name ++ " failed."))
      else runChecks rest ctx name

/-! ## Argument processing (`slash_command.py` lines 393-459) -/

/-- One parameter of a handler's `inspect.signature`, after the leading
context parameter.  `annot = none` models an empty (absent) annotation and
`default = none` models `param.empty` (no default). -/
structure ParamSig where
  name : String
  annot : Option PyType
  default : Option Value

/-- A Python handler function: its signature, its `__commands_checks__`
attribute, and its body (invoked as `handler(ctx, *args)`). -/
structure PyFunc where
  sig : List ParamSig
  commandsChecks : List CheckFn := []
  body : CommandsContext → List Value → Except PyError Unit

/-- The per-parameter data `conversion_entrypoint` closes over: the resolved
converter, the computed required flag, and `param.default`. -/
structure EntryCell where
  conv : ConvFn
  required : Bool
  default : Option Value

/-- One entry of `self._processors`. -/
abbrev Processor := Payload → OptionPayload → Except PyError Value

/-- `conversion_entrypoint` (lines 424-442): read the option's `value`; when it
is absent, a required parameter is a `BadArgument` protocol error and an
optional one yields `param.default` (or `None` when the default is
`param.empty`); otherwise run the converter. -/
def conversionEntrypoint (cell : EntryCell) (ctxData : Payload)
    (arg : OptionPayload) : Except PyError Value :=
  match arg.value with
  | none =>
    if cell.required then
      .error (.badArgument "Received optional param from Discord but no option is set.")
    else .ok (cell.default.getD .vNone)
  | some v => cell.conv.run ctxData v

/-- The dict appended to `self.args` for each parameter (the serialized
Discord API option descriptor). -/
structure ArgSpec where
  argType : Nat
  name : String
  description : String
  required : Bool
  deriving DecidableEq

/-- The parameter loop of `_process_args` (lines 407-456), returning the
per-position API descriptors together with the `EntryCell` of the *last*
parameter.  The descriptors use each iteration's own values (they are appended
eagerly), but `conversion_entrypoint` is a closure over the loop variables
`required`, `param` and `converter_function` — Python closures capture the
enclosing function's variable cells, not their values at definition time, so
after the loop every appended entrypoint sees the last iteration's values.
Hence only the final cell is relevant to the processors. -/
def processParamsLoop : List ParamSig → Except PyError (List ArgSpec × Option EntryCell)
  | [] => .ok ([], none)
  | p :: rest =>
    let converterType := p.annot.getD .pyStr
    let required0 := p.default.isNone
    match getConverterFunction converterType with
    | .error e => .error e
    | .ok (cf, tid) =>
      let required := required0 && cf.required
      let spec : ArgSpec :=
        { argType := tid
          name := p.name
          description := if required then "Required input" else "Optional input"
          required := required }
      match processParamsLoop rest with
      | .error e => .error e
      | .ok (specs, cellRest) =>
        .ok (spec :: specs, cellRest <|> some ⟨cf, required, p.default⟩)

/-- Is the leading parameter's annotation acceptable
(`{param.empty, Context, CommandsContext}`)? -/
def ctxAnnotOk : Option PyType → Bool
  | none => true
  | some .pyContext => true
  | some .pyCommandsContext => true
  | some _ => false

/-- `_process_args` (lines 393-459): validate the leading context parameter,
run the parameter loop, and build `self._processors` — one
`conversion_entrypoint` per parameter, all of them (because of the late-binding
closure, see `processParamsLoop`) reading the last parameter's cell. -/
def processArgs (h : PyFunc) : Except PyError (List Processor × List ArgSpec) :=
  match h.sig with
  | [] => .error (.typeError "Expected context")
  | ctxParam :: rest =>
    if ctxAnnotOk ctxParam.annot then
      match processParamsLoop rest with
      | .error e => .error e
      | .ok (specs, cell?) =>
        match cell? with
        | none => .ok ([], specs)
        | some cell => .ok (List.replicate specs.length (conversionEntrypoint cell), specs)
    else .error (.typeError "Context type is invalid")

/-! ## SlashCommand (`slash_command.py` lines 309-459) -/

/-- A command tree node: name, description, optional handler, the Discord API
argument descriptors, the conversion processors, the `private` flag, the
children dict and the (wrapped) checks. -/
inductive SlashCommand where
  | mk (name : String) (description : String) (handler : Option PyFunc)
       (args : List ArgSpec) (processors : List Processor) (priv : Bool)
       (children : List (String × SlashCommand))
       (checks : List (CommandsContext → Except PyError Bool))

def SlashCommand.name : SlashCommand → String
  | .mk n _ _ _ _ _ _ _ => n

def SlashCommand.description : SlashCommand → String
  | .mk _ d _ _ _ _ _ _ => d

def SlashCommand.handler : SlashCommand → Option PyFunc
  | .mk _ _ h _ _ _ _ _ => h

def SlashCommand.args : SlashCommand → List ArgSpec
  | .mk _ _ _ a _ _ _ _ => a

def SlashCommand.processors : SlashCommand → List Processor
  | .mk _ _ _ _ p _ _ _ => p

def SlashCommand.children : SlashCommand → List (String × SlashCommand)
  | .mk _ _ _ _ _ _ c _ => c

def SlashCommand.checks : SlashCommand → List (CommandsContext → Except PyError Bool)
  | .mk _ _ _ _ _ _ _ c => c

/-- `SlashCommand.__init__`: with a handler, `_process_args` builds the
processors and argument descriptors (propagating its construction errors);
without one, both stay empty.  Children start empty; checks are collected and
wrapped by `_get_checks`. -/
def SlashCommand.make (bot : Bot) (name description : String)
    (handler : Option PyFunc) (priv : Bool) : Except PyError SlashCommand :=
  match handler with
  | some h =>
    match processArgs h with
    | .error e => .error e
    | .ok (procs, specs) =>
      .ok (.mk name description (some h) specs procs priv []
            (getChecks bot h.commandsChecks))
  | none => .ok (.mk name description none [] [] priv [] (getChecks bot []))

/-- `SlashCommand._add_child` (lines 387-391): a node with a handler cannot
take children; otherwise insert into the children dict by the child's name. -/
def SlashCommand.addChild : SlashCommand → SlashCommand → Except PyError SlashCommand
  | .mk n d h args procs priv children checks, child =>
    if h.isSome then .error (.recursionError "Async command cannot have children.")
    else .ok (.mk n d h args procs priv (dictInsert children child.name child) checks)

/-- The argument loop of `execute` (lines 379-382):
`params[index]` for each processor, so a shorter options list raises
`IndexError`; surplus options are ignored. -/
def runProcessors (procs : List Processor) (params : List OptionPayload)
    (ctxData : Payload) : Except PyError (List Value) :=
  match procs with
  | [] => .ok []
  | p :: prest =>
    match params with
    | [] => .error .indexError
    | a :: arest =>
      match p ctxData a with
      | .error e => .error e
      | .ok v =>
        match runProcessors prest arest ctxData with
        | .error e => .error e
        | .ok vs => .ok (v :: vs)

theorem dictGet_sizeOf {α : Type} [SizeOf α] {cs : List (String × α)} {k : String}
    {v : α} (h : dictGet cs k = some v) : sizeOf v < sizeOf cs := by
  induction cs with
  | nil => simp [dictGet] at h
  | cons hd tl ih =>
    obtain ⟨k', v'⟩ := hd
    simp only [dictGet] at h
    split at h
    · cases h
      simp only [List.cons.sizeOf_spec, Prod.mk.sizeOf_spec]
      omega
    · have := ih h
      simp only [List.cons.sizeOf_spec, Prod.mk.sizeOf_spec]
      omega

/-- `SlashCommand.execute` (lines 352-385).  A handler-less node expects a
single sub-command option, *overwrites the payload's `data.options` in place*
with that option's nested options and recurses; a handler node builds a fresh
context, runs its checks, converts the positional options and invokes the
handler.  The returned payload is the (possibly mutated) `ctx_data`, also in
the error case — the caller's dict has already been mutated when an inner
error is raised. -/
def SlashCommand.execute (bot : Bot) :
    SlashCommand → Payload → Except PyError Unit × Payload
  | .mk name _desc handler _args processors _priv children checks, ctxData =>
    match handler with
    | none =>
      match ctxData.data.options with
      | [baseOption] =>
        if baseOption.optType = 1 ∨ baseOption.optType = 2 then
          match hget : dictGet children baseOption.name with
          | none =>
            -- the f-string interpolates the failed lookup result, not the name
            (.error (.badArgument "Unknown subcommand \"None\""), ctxData)
          | some subcommand =>
            SlashCommand.execute bot subcommand
              { ctxData with data := { ctxData.data with options := baseOption.options } }
        else
          (.error (.badArgument "First argument is not a sub-command type."), ctxData)
      | _ =>
        (.error (.badArgument "Expected type option, found weird argument set."), ctxData)
    | some h =>
      let ctx := CommandsContext.init ctxData
      match runChecks checks ctx name with
      | .error e => (.error e, ctxData)
      | .ok _ =>
        match runProcessors processors ctxData.data.options ctxData with
        | .error e => (.error e, ctxData)
        | .ok args => (h.body ctx args, ctxData)
  termination_by cmd _ => sizeOf cmd
  decreasing_by
    simp only [SlashCommand.mk.sizeOf_spec]
    have := dictGet_sizeOf hget
    omega

/-! ## Command registration (`patcher.py` lines 7-52)

A registrable item is either a coroutine function (a leaf handler) or a
non-callable container scanned for `_slash`-tagged members (`item.__dir__()`),
each member keyed by its `_slash` attribute value.  `__doc__` supplies the
description and `_private` the visibility flag. -/

inductive CogItem where
  | fn (doc : Option String) (priv : Bool) (func : PyFunc)
  | cls (doc : Option String) (priv : Bool) (members : List (String × CogItem))

def CogItem.depth : CogItem → Nat
  | .fn _ _ _ => 0
  | .cls _ _ members => membersDepth members
where
  /-- The maximum nesting depth of a node in the item tree: a member sits one
  level below its container. -/
  membersDepth : List (String × CogItem) → Nat
    | [] => 0
    | (_, c) :: rest => max (1 + c.depth) (membersDepth rest)

mutual
/-- `_CommandsProcessor._create_command` (lines 17-48).  A coroutine function
becomes the handler; otherwise a nesting level beyond 1 is a `RecursionError`,
and the item is scanned as a sub-command container: every tagged member is
built one level deeper and added as a child, and a container without children
is a `TypeError`. -/
def createCommand (bot : Bot) (name : String) :
    CogItem → Nat → Except PyError SlashCommand
  | .fn doc priv f, _nested =>
    SlashCommand.make bot name (doc.getD "") (some f) priv
  | .cls doc priv members, nested =>
    if nested > 1 then .error (.recursionError "Command is nested too deep.")
    else
      match SlashCommand.make bot name (doc.getD "") none priv with
      | .error e => .error e
      | .ok command =>
        match addMembers bot members nested command with
        | .error e => .error e
        | .ok command =>
          if command.children.length = 0 then
            .error (.typeError "A sub-command class requires children.")
          else .ok command

/-- The member scan of `_create_command` (lines 36-41): build each tagged
member at `nested + 1` and `_add_child` it. -/
def addMembers (bot : Bot) :
    List (String × CogItem) → Nat → SlashCommand → Except PyError SlashCommand
  | [], _, cmd => .ok cmd
  | (childName, item) :: rest, nested, cmd =>
    match createCommand bot childName item (nested + 1) with
    | .error e => .error e
    | .ok sub =>
      match cmd.addChild sub with
      | .error e => .error e
      | .ok cmd' => addMembers bot rest nested cmd'
end

/-- The flat top-level registry `_CommandsProcessor.commands`. -/
abbrev Registry := List (String × SlashCommand)

/-- `_CommandsProcessor.load_command` (lines 50-52): build the tree from the
item's `_slash` name and insert it by that name (a construction error leaves
the registry untouched). -/
def loadCommand (bot : Bot) (reg : Registry) (slashName : String)
    (item : CogItem) : Except PyError Registry :=
  match createCommand bot slashName item 0 with
  | .error e => .error e
  | .ok c => .ok (dictInsert reg slashName c)

/-- `_CommandsProcessor.unload_command` (lines 13-15): `del self.commands[name]`
— removes the binding when present and raises `KeyError` when absent. -/
def unloadCommand (reg : Registry) (name : String) : Except PyError Registry :=
  if (dictGet reg name).isSome then .ok (dictDelete reg name)
  else .error (.keyError name)

/-! ## The interaction router (`patcher.py` lines 66-94) -/

/-- An event dispatched on the bot by the router. -/
inductive Event where
  | commandError (ctx : CommandsContext) (err : PyError)

/-- `_CommandsPatcher._process_interaction` (lines 66-79): for a type-2
interaction, look the top-level name up (a miss raises `CommandNotFound` inside
the same `try`), execute the tree, and turn *any* raised exception into a
single `command_error` dispatch carrying a context rebuilt from the (possibly
mutated) payload and the originating error.  The function itself always
returns normally; the returned payload is the dict after any in-place
mutation. -/
def processInteraction (bot : Bot) (reg : Registry) (data : Payload) :
    List Event × Payload :=
  if data.payloadType = 2 then
    let commandName := data.data.name
    match dictGet reg commandName with
    | none =>
      ([.commandError (CommandsContext.init data)
          (.commandNotFound ("The root command \"" ++ commandName ++ "\" was not found."))],
       data)
    | some cmd =>
      match cmd.execute bot data with
      | (.ok _, d') => ([], d')
      | (.error e, d') => ([.commandError (CommandsContext.init d') e], d')
  else ([], data)

/-- A raw gateway message `{t, d}`. -/
structure SocketMessage where
  t : String
  d : Payload

/-- `_CommandsPatcher.on_socket_response` (lines 83-94): only
`INTERACTION_CREATE` messages of payload type 2 or 3 reach the router. -/
def onSocketResponse (bot : Bot) (reg : Registry) (m : SocketMessage) :
    List Event × Payload :=
  if m.t ≠ "INTERACTION_CREATE" then ([], m.d)
  else if m.d.payloadType = 2 ∨ m.d.payloadType = 3 then
    processInteraction bot reg m.d
  else ([], m.d)

/-! ## Derived tree measures -/

mutual
/-- Depth of the deepest node below this command node (0 for a leaf). -/
def SlashCommand.maxDepth : SlashCommand → Nat
  | .mk _ _ _ _ _ _ children _ => childrenMaxDepth children

def childrenMaxDepth : List (String × SlashCommand) → Nat
  | [] => 0
  | (_, c) :: rest => max (1 + c.maxDepth) (childrenMaxDepth rest)
end

mutual
/-- The handler-xor-children invariant, checked on every node of the tree:
exactly one of {handler present, children non-empty}. -/
def SlashCommand.invariantOk : SlashCommand → Bool
  | .mk _ _ handler _ _ _ children _ =>
    (Bool.xor handler.isSome (!children.isEmpty)) && childrenInvariantOk children

def childrenInvariantOk : List (String × SlashCommand) → Bool
  | [] => true
  | (_, c) :: rest => c.invariantOk && childrenInvariantOk rest
end

/-- The underlying predicate of a registered check (used to inspect what a
check in a fixture bot returns, independent of the wrapping applied by
`_get_checks`). -/
def CheckFn.call : CheckFn → CommandsContext → Except PyError Bool
  | .sync f, ctx => f ctx
  | .coro f, ctx => f ctx

/-- `.isCls` distinguishes container items from coroutine-function items. -/
def CogItem.isCls : CogItem → Bool
  | .fn _ _ _ => false
  | .cls _ _ _ => true

/-! ## Concrete fixtures used by the evaluation and witness theorems -/

def bot0 : Bot := {}

/-- An untyped leading context parameter. -/
def ctxParam : ParamSig := { name := "ctx", annot := none, default := none }

/-- `async def f(ctx): ...` — a handler with no declared arguments. -/
def exampleFn : PyFunc := { sig := [ctxParam], body := fun _ _ => .ok () }

def payload0 : Payload :=
  { payloadType := 2
    data := { name := "greet", options := [] }
    id := "101"
    token := "tok"
    channel_id := "555"
    guild_id := "777" }

def defaultCmd : SlashCommand := .mk "" "" none [] [] false [] []

/-- `async def f(ctx, x: typing.Union[int, str]): ...`. -/
def fnUnion : PyFunc :=
  { sig := [ctxParam,
            { name := "x", annot := some (.pyUnion [.pyInt, .pyStr]), default := none }]
    body := fun _ _ => .ok () }

/-- `async def f(ctx, a: str = "d"): ...` — the body reports whether it was
invoked with the declared default. -/
def fnOptional : PyFunc :=
  { sig := [ctxParam,
            { name := "a", annot := some .pyStr, default := some (.vStr "d") }]
    body := fun _ args =>
      if args = [Value.vStr "d"] then .ok ()
      else .error (.typeError "unexpected arguments") }

def cmd6 : SlashCommand :=
  (SlashCommand.make bot0 "opt" "" (some fnOptional) false).toOption.getD defaultCmd

def payload6 : Payload :=
  { payload0 with data := { name := "opt", options := [] } }

def payload6v : Payload :=
  { payload0 with data := { name := "opt", options := [.mk "a" 3 none []] } }

/-- A bot with two plain (non-coroutine) global pre-checks: the first always
rejects, the second always passes. -/
def bot7 : Bot :=
  { checks := [.sync fun _ => .ok false, .sync fun _ => .ok true] }

/-- A no-argument handler whose body signals that it was reached. -/
def fnSentinel : PyFunc :=
  { sig := [ctxParam], body := fun _ _ => .error (.typeError "handler was invoked") }

def cmd7 : SlashCommand :=
  (SlashCommand.make bot7 "c" "" (some fnSentinel) false).toOption.getD defaultCmd

def payload7 : Payload :=
  { payload0 with data := { name := "c", options := [] } }

/-- `async def f(ctx, a: str, b: discord.User): ...` — the body reports whether
both positions arrived as resolved users. -/
def fnTwoParams : PyFunc :=
  { sig := [ctxParam,
            { name := "a", annot := some .pyStr, default := none },
            { name := "b", annot := some .pyUser, default := none }]
    body := fun _ args =>
      if args = [Value.vUser "U7", Value.vUser "U9"] then
        .error (.typeError "str parameter received a resolved user")
      else .ok () }

def cmd8 : SlashCommand :=
  (SlashCommand.make bot0 "two" "" (some fnTwoParams) false).toOption.getD defaultCmd

def payload8 : Payload :=
  { payload0 with data :=
    { name := "two"
      options := [.mk "a" 3 (some (.vStr "7")) [], .mk "b" 6 (some (.vStr "9")) []]
      resolved := { users := [("7", "U7"), ("9", "U9")] } } }

/-- A two-level container: root → group → leaf. -/
def item2 : CogItem :=
  .cls none false [("g", .cls none false [("s", .fn none false exampleFn)])]

/-- A three-level container: root → a → b → c, where `b` is itself a container
processed at nesting level 2. -/
def item3 : CogItem :=
  .cls none false
    [("a", .cls none false [("b", .cls none false [("c", .fn none false exampleFn)])])]

def cmdEx2 : SlashCommand :=
  (createCommand bot0 "r" item2 0).toOption.getD defaultCmd

/-- A handler-less group node with a single leaf child named `"user"`. -/
def leaf0 : SlashCommand := .mk "user" "" (some exampleFn) [] [] false [] []

def group0 : SlashCommand := .mk "greet" "" none [] [] false [("user", leaf0)] []

def opt10 : OptionPayload := .mk "user" 1 none []

def payload10 : Payload :=
  { payload0 with data := { name := "greet", options := [opt10] } }

def reg1 : Registry := [("greet", defaultCmd)]

/-! ## Dict lemmas -/

theorem dictGet_eq_none_of_not_mem {α : Type} {l : List (String × α)} {k : String}
    (h : k ∉ l.map Prod.fst) : dictGet l k = none := by
  induction l with
  | nil => rfl
  | cons hd tl ih =>
    obtain ⟨k', v⟩ := hd
    simp only [List.map, List.mem_cons] at h
    push_neg at h
    simp only [dictGet]
    rw [if_neg (fun hk : k' = k => h.1 hk.symm)]
    exact ih h.2

theorem dictGet_dictDelete_self {α : Type} {l : List (String × α)} {k : String}
    (hnodup : (l.map Prod.fst).Nodup) : dictGet (dictDelete l k) k = none := by
  induction l with
  | nil => rfl
  | cons hd tl ih =>
    obtain ⟨k', v⟩ := hd
    simp only [List.map, List.nodup_cons] at hnodup
    simp only [dictDelete]
    split
    · next heq =>
      subst heq
      exact dictGet_eq_none_of_not_mem hnodup.1
    · next hne =>
      simp only [dictGet, if_neg hne]
      exact ih hnodup.2

theorem dictGet_dictDelete_ne {α : Type} {l : List (String × α)} {k k' : String}
    (h : k' ≠ k) : dictGet (dictDelete l k) k' = dictGet l k' := by
  induction l with
  | nil => rfl
  | cons hd tl ih =>
    obtain ⟨ka, v⟩ := hd
    by_cases hka : ka = k
    · simp only [dictDelete, if_pos hka, dictGet]
      rw [if_neg (fun hk : ka = k' => h (hk.symm.trans hka))]
    · simp only [dictDelete, if_neg hka, dictGet]
      split
      · rfl
      · exact ih

/-- Every completed run of the union loop leaves `converters` empty: an
element is either filtered or hits the always-failing `convUnionForm`. -/
theorem unionLoop_converters_nil (args : List PyType) (st st' : UnionLoopState)
    (hconv : st.converters = []) (h : unionLoop args st = .ok st') :
    st'.converters = [] := by
  induction args generalizing st with
  | nil => simp [unionLoop] at h; simpa [← h]
  | cons a rest ih =>
    simp only [unionLoop] at h
    split at h
    · exact ih { st with required := false } hconv h
    · split at h
      · exact ih { st with discordObjFallback := true } hconv h
      · simp [convUnionForm] at h

/-! ## Claim C5 — Union[int, str] conversion -/

/-- C5: the claim states that a `Union[int, str]` parameter constructs
successfully and converts `"42"` through the integer branch and `"abc"`
through the string branch.  The code disagrees: the union branch of
`_get_converter_function` recurses on `x = converter_type.__origin__` (the
`typing.Union` special form) instead of the branch type `arg`, so resolving
the union raises `TypeError` before any branch converter is built, and a
command whose handler declares such a parameter fails to construct.  The
elaborate int/str fallback machinery below that line (lines 246-292) is
unreachable.  This theorem evaluates the code at the failing input. -/
theorem union_int_str_construction_fails :
    getConverterFunction (.pyUnion [.pyInt, .pyStr]) =
      .error (.typeError "The argument type is not discord.ext.commands compatible.") ∧
    SlashCommand.make bot0 "u" "" (some fnUnion) false =
      .error (.typeError "The argument type is not discord.ext.commands compatible.") :=
  ⟨rfl, rfl⟩

/-! ## Claim C9 — unload of an absent name -/

/-- C9 counterexample: the claim states that unloading an absent top-level
name fails silently.  On the empty registry, `unload_command "x"` executes
`del self.commands["x"]`, which raises `KeyError`. -/
theorem unload_absent_raises_key_error :
    unloadCommand ([] : Registry) "x" = .error (.keyError "x") := rfl

/-- C9 (amended): unloading removes the command when its name is present
(leaving every other binding unchanged); when the name is absent the operation
raises `KeyError` — and in either case no other binding is disturbed.  The
no-duplicate hypothesis restates that a Python dict has unique keys. -/
theorem unload_semantics (reg : Registry) (nm : String)
    (hnodup : (reg.map Prod.fst).Nodup) :
    ((dictGet reg nm).isSome = true →
      unloadCommand reg nm = .ok (dictDelete reg nm) ∧
      dictGet (dictDelete reg nm) nm = none ∧
      ∀ k, k ≠ nm → dictGet (dictDelete reg nm) k = dictGet reg k) ∧
    ((dictGet reg nm).isSome = false →
      unloadCommand reg nm = .error (.keyError nm)) := by
  constructor
  · intro hsome
    refine ⟨by simp [unloadCommand, hsome], dictGet_dictDelete_self hnodup, ?_⟩
    intro k hk
    exact dictGet_dictDelete_ne hk
  · intro hnone
    simp [unloadCommand, hnone]

theorem unload_semantics_witness :
    (dictGet reg1 "greet").isSome = true ∧
    unloadCommand reg1 "greet" = .ok (dictDelete reg1 "greet") ∧
    dictGet (dictDelete reg1 "greet") "greet" = none :=
  ⟨rfl,
   ((unload_semantics reg1 "greet" (by simp [reg1])).1 rfl).1,
   ((unload_semantics reg1 "greet" (by simp [reg1])).1 rfl).2.1⟩

/-! ## Claim C2 — reply-channel state machine -/

/-- C2: on a fresh context the first `reply` issues the initial callback
request (body type 4, flag bit 64 exactly when the ephemeral flag is set) and
flips the first-reply state; on a context whose first reply is consumed every
`reply` is a follow-up send with no state change; `reinvoke` always fails with
the not-implemented error. -/
theorem reply_state_machine (ctx : CommandsContext) (content : Option String)
    (kw : ReplyKwargs) (h : ctx.firstReply = true) :
    (ctx.reply content kw =
       (.initialCallback ctx.ctxData.id ctx.ctxData.token (replyBody ctx content kw),
        { ctx with firstReply := false }) ∧
     (replyBody ctx content kw).bodyType = 4 ∧
     (replyBody ctx content kw).flags = (if ctx.ephemeral then some 64 else none)) ∧
    (∀ (ctx2 : CommandsContext) (c2 : Option String) (k2 : ReplyKwargs),
      ctx2.firstReply = false → ctx2.reply c2 k2 = (.followUp c2 k2, ctx2)) ∧
    (∀ ctx3 : CommandsContext,
      ctx3.reinvoke = .error (.notImplementedError "This is not implemented in slash commands.")) := by
  refine ⟨⟨?_, rfl, rfl⟩, ?_, fun _ => rfl⟩
  · simp [CommandsContext.reply, h]
  · intro ctx2 c2 k2 h2
    simp [CommandsContext.reply, h2]

theorem reply_state_machine_witness :
    (CommandsContext.init payload0).firstReply = true ∧
    (CommandsContext.init payload0).reply (some "hi") {} =
      (.initialCallback "101" "tok"
         (replyBody (CommandsContext.init payload0) (some "hi") {}),
       { CommandsContext.init payload0 with firstReply := false }) :=
  ⟨rfl, (reply_state_machine (CommandsContext.init payload0) (some "hi") {} rfl).1.1⟩

/-! ## Claim C1 — the router boundary -/

/-- C1: for a type-2 interaction, a registry miss or any error raised by the
tree walk / checks / conversion / handler is converted into exactly one
`command_error` event carrying an interaction context and the originating
error; a successful execution dispatches nothing; and in every case the router
returns normally (its total type `List Event × Payload` has no error channel —
the source's `except Exception` swallows every exception). -/
theorem router_reports_single_command_error (bot : Bot) (reg : Registry)
    (data : Payload) (h : data.payloadType = 2) :
    (dictGet reg data.data.name = none →
      processInteraction bot reg data =
        ([.commandError (CommandsContext.init data)
            (.commandNotFound
              ("The root command \"" ++ data.data.name ++ "\" was not found."))],
         data)) ∧
    (∀ cmd, dictGet reg data.data.name = some cmd →
      (∀ d', cmd.execute bot data = (.ok (), d') →
        processInteraction bot reg data = ([], d')) ∧
      (∀ e d', cmd.execute bot data = (.error e, d') →
        processInteraction bot reg data =
          ([.commandError (CommandsContext.init d') e], d'))) ∧
    (processInteraction bot reg data).1.length ≤ 1 := by
  refine ⟨?_, ?_, ?_⟩
  · intro hn
    simp [processInteraction, h, hn]
  · intro cmd hc
    constructor
    · intro d' he
      simp [processInteraction, h, hc, he]
    · intro e d' he
      simp [processInteraction, h, hc, he]
  · simp only [processInteraction, h, if_pos]
    cases hdg : dictGet reg data.data.name with
    | none => simp
    | some cmd =>
      rcases hres : SlashCommand.execute bot cmd data with ⟨res, d'⟩
      cases res <;> simp [hres]

theorem router_reports_single_command_error_witness :
    payload0.payloadType = 2 ∧
    processInteraction bot0 ([] : Registry) payload0 =
      ([.commandError (CommandsContext.init payload0)
          (.commandNotFound "The root command \"greet\" was not found.")],
       payload0) :=
  ⟨rfl,
   (router_reports_single_command_error bot0 ([] : Registry) payload0 rfl).1 rfl⟩

/-! ## Claim C6 — omitted optional options -/

/-- C6: the claim states that when the inbound option for a non-required
parameter is absent — "present with no value or missing entirely from the
options list" — dispatch never raises and the handler receives the declared
default.  The code only honours the first half: an option dict present without
a `value` key resolves to the declared default (third conjunct — the fixture
handler checks it received `"d"`), but an option missing entirely from the
list makes `execute` index past the end of `data["options"]` and raise
`IndexError` (second conjunct).  A parameter literally annotated
`Optional[T]` cannot even be constructed (see C5: `Optional[T]` is
`Union[T, NoneType]`). -/
theorem missing_option_raises_index_error :
    cmd6.args =
      [{ argType := 3, name := "a", description := "Optional input", required := false }] ∧
    SlashCommand.execute bot0 cmd6 payload6 = (.error .indexError, payload6) ∧
    SlashCommand.execute bot0 cmd6 payload6v = (.ok (), payload6v) := by
  refine ⟨rfl, ?_, ?_⟩
  · rw [SlashCommand.execute.eq_def]
    rfl
  · rw [SlashCommand.execute.eq_def]
    rfl

/-! ## Claim C7 — check ordering -/

/-- C7: the claim states the first falsy check stops execution with
`CheckFailure` before any conversion.  The code's `_get_checks` replaces every
non-coroutine check with an `async def wrapper` whose body late-binds the loop
variable `c`; by call time `c` holds the *last* collected check, so a rejecting
plain check that is not last never runs.  Fixture: the bot's first global
pre-check returns `False` (first conjunct) and its second returns `True`; the
claim demands a `CheckFailure`, but every check passes and the handler runs —
the second conjunct surfaces the sentinel error of the handler body instead of
a `CheckFailure`. -/
theorem sync_check_wrapper_skips_first_check :
    CheckFn.call (bot7.checks.headD (.coro fun _ => .ok true))
      (CommandsContext.init payload7) = .ok false ∧
    SlashCommand.execute bot7 cmd7 payload7 =
      (.error (.typeError "handler was invoked"), payload7) := by
  refine ⟨rfl, ?_⟩
  rw [SlashCommand.execute.eq_def]
  rfl

/-! ## Claim C8 — per-position converters -/

/-- C8: the claim states each positional option is converted through the
converter/required-flag/default derived from the parameter declared at that
same position.  The code derives the per-position API descriptors that way
(first conjunct: position 0 is advertised as a string option), but
`conversion_entrypoint` closes over the loop variables of `_process_args`, so
every processor uses the *last* parameter's converter.  Fixture: handler
`(ctx, a: str, b: discord.User)`; the raw value `"7"` at position 0 is
resolved through the *user* converter and the handler receives a user entity
for its `str` parameter (the fixture body signals exactly when both positions
arrive as resolved users). -/
theorem processors_use_last_param_converter :
    cmd8.args.headD { argType := 0, name := "", description := "", required := false } =
      { argType := 3, name := "a", description := "Required input", required := true } ∧
    cmd8.processors.length = 2 ∧
    SlashCommand.execute bot0 cmd8 payload8 =
      (.error (.typeError "str parameter received a resolved user"), payload8) := by
  refine ⟨rfl, rfl, ?_⟩
  rw [SlashCommand.execute.eq_def]
  rfl

/-! ## Claim C10 — in-place mutation of the payload by the tree walk -/

theorem execute_leaf_payload (bot : Bot) (cmd : SlashCommand) (p : Payload)
    (h : cmd.handler.isSome = true) :
    (SlashCommand.execute bot cmd p).2 = p := by
  obtain ⟨n, d, hd, a, pr, pv, ch, ck⟩ := cmd
  cases hd with
  | none => simp [SlashCommand.handler] at h
  | some f =>
    rw [SlashCommand.execute.eq_def]
    cases hrc : runChecks ck (CommandsContext.init p) n with
    | error e => simp [hrc]
    | ok u =>
      cases hrp : runProcessors pr p.data.options p with
      | error e => simp [hrc, hrp]
      | ok vs => simp [hrc, hrp]

theorem optionPayload_options_ne_singleton (o : OptionPayload) : o.options ≠ [o] := by
  obtain ⟨n, t, v, os⟩ := o
  simp only [OptionPayload.options]
  intro heq
  have hs := congrArg sizeOf heq
  simp only [List.cons.sizeOf_spec, List.nil.sizeOf_spec,
    OptionPayload.mk.sizeOf_spec] at hs
  omega

/-- C10: a handler-less node overwrites the payload's `data.options` in place
with the chosen option's nested options before recursing, so after dispatching
to a leaf child the payload no longer carries the original top-level options
list (an error reported later rebuilds its context from this mutated payload,
see `processInteraction`); every other payload field — id, token, channel_id,
guild_id, member, user, the data name and the resolved table — is unchanged by
the tree walk. -/
theorem group_dispatch_mutates_options (bot : Bot) (g child : SlashCommand)
    (payload : Payload) (opt : OptionPayload)
    (hH : g.handler = none)
    (hopts : payload.data.options = [opt])
    (ht : opt.optType = 1 ∨ opt.optType = 2)
    (hchild : dictGet g.children opt.name = some child)
    (hleaf : child.handler.isSome = true) :
    SlashCommand.execute bot g payload =
      SlashCommand.execute bot child
        { payload with data := { payload.data with options := opt.options } } ∧
    (SlashCommand.execute bot g payload).2.data.options = opt.options ∧
    (SlashCommand.execute bot g payload).2.data.options ≠ payload.data.options ∧
    (SlashCommand.execute bot g payload).2.id = payload.id ∧
    (SlashCommand.execute bot g payload).2.token = payload.token ∧
    (SlashCommand.execute bot g payload).2.channel_id = payload.channel_id ∧
    (SlashCommand.execute bot g payload).2.guild_id = payload.guild_id ∧
    (SlashCommand.execute bot g payload).2.member = payload.member ∧
    (SlashCommand.execute bot g payload).2.user = payload.user ∧
    (SlashCommand.execute bot g payload).2.data.resolved = payload.data.resolved ∧
    (SlashCommand.execute bot g payload).2.data.name = payload.data.name := by
  have hmain : SlashCommand.execute bot g payload =
      SlashCommand.execute bot child
        { payload with data := { payload.data with options := opt.options } } := by
    obtain ⟨n, d, hd, a, pr, pv, ch, ck⟩ := g
    simp only [SlashCommand.handler] at hH
    simp only [SlashCommand.children] at hchild
    subst hH
    rw [SlashCommand.execute.eq_def]
    simp only [hopts, if_pos ht]
    split
    · next hnone =>
      rw [hchild] at hnone
      cases hnone
    · next sub hsub =>
      rw [hchild] at hsub
      cases hsub
      rfl
  have hsnd : (SlashCommand.execute bot g payload).2 =
      { payload with data := { payload.data with options := opt.options } } := by
    rw [hmain]
    exact execute_leaf_payload bot child _ hleaf
  refine ⟨hmain, ?_, ?_, ?_, ?_, ?_, ?_, ?_, ?_, ?_, ?_⟩ <;> rw [hsnd]
  rw [hopts]
  exact optionPayload_options_ne_singleton opt

theorem group_dispatch_mutates_options_witness :
    group0.handler = none ∧
    payload10.data.options = [opt10] ∧
    (SlashCommand.execute bot0 group0 payload10).2.data.options = opt10.options ∧
    (SlashCommand.execute bot0 group0 payload10).2.data.options ≠
      payload10.data.options :=
  ⟨rfl, rfl,
   (group_dispatch_mutates_options bot0 group0 leaf0 payload10 opt10 rfl rfl
      (Or.inl rfl) rfl rfl).2.1,
   (group_dispatch_mutates_options bot0 group0 leaf0 payload10 opt10 rfl rfl
      (Or.inl rfl) rfl rfl).2.2.1⟩

/-! ## Tree construction lemmas (claims C3 and C4) -/

theorem maxDepth_eq (c : SlashCommand) : c.maxDepth = childrenMaxDepth c.children := by
  cases c
  rfl

theorem invariantOk_eq (c : SlashCommand) :
    c.invariantOk =
      (Bool.xor c.handler.isSome (!c.children.isEmpty) &&
        childrenInvariantOk c.children) := by
  cases c
  rfl

theorem make_ok {bot : Bot} {nm ds : String} {hd : Option PyFunc} {pv : Bool}
    {cmd : SlashCommand} (h : SlashCommand.make bot nm ds hd pv = .ok cmd) :
    cmd.handler = hd ∧ cmd.children = [] := by
  cases hd with
  | none =>
    simp only [SlashCommand.make] at h
    cases h
    exact ⟨rfl, rfl⟩
  | some f =>
    simp only [SlashCommand.make] at h
    cases hpa : processArgs f with
    | error e => rw [hpa] at h; cases h
    | ok pr =>
      obtain ⟨procs, specs⟩ := pr
      rw [hpa] at h
      cases h
      exact ⟨rfl, rfl⟩

theorem addChild_ok {node child node' : SlashCommand}
    (h : node.addChild child = .ok node') :
    node.handler = none ∧ node'.handler = none ∧
    node'.children = dictInsert node.children child.name child := by
  obtain ⟨n, d, hd, a, pr, pv, ch, ck⟩ := node
  cases hd with
  | some f => simp [SlashCommand.addChild] at h
  | none =>
    simp only [SlashCommand.addChild, Option.isSome_none, Bool.false_eq_true,
      if_false, Except.ok.injEq] at h
    subst h
    exact ⟨rfl, rfl, rfl⟩

theorem dictInsert_ne_nil {α : Type} (cs : List (String × α)) (k : String) (v : α) :
    dictInsert cs k v ≠ [] := by
  cases cs with
  | nil => simp [dictInsert]
  | cons hd tl =>
    obtain ⟨k', v'⟩ := hd
    simp only [dictInsert]
    split <;> simp

theorem childrenMaxDepth_dictInsert (cs : List (String × SlashCommand)) (k : String)
    (v : SlashCommand) :
    childrenMaxDepth (dictInsert cs k v) ≤
      max (childrenMaxDepth cs) (1 + v.maxDepth) := by
  induction cs with
  | nil => simp [dictInsert, childrenMaxDepth]
  | cons hd tl ih =>
    obtain ⟨k', v'⟩ := hd
    simp only [dictInsert]
    split
    · simp only [childrenMaxDepth]
      omega
    · simp only [childrenMaxDepth]
      simp only [childrenMaxDepth] at ih
      omega

theorem childrenInvariantOk_dictInsert (cs : List (String × SlashCommand))
    (k : String) (v : SlashCommand) (hcs : childrenInvariantOk cs = true)
    (hv : v.invariantOk = true) :
    childrenInvariantOk (dictInsert cs k v) = true := by
  induction cs with
  | nil => simp [dictInsert, childrenInvariantOk, hv]
  | cons hd tl ih =>
    obtain ⟨k', v'⟩ := hd
    simp only [childrenInvariantOk, Bool.and_eq_true] at hcs
    simp only [dictInsert]
    split
    · simp [childrenInvariantOk, hv, hcs.2]
    · simp [childrenInvariantOk, hcs.1, ih hcs.2]

theorem addMembers_bound {bot : Bot} {nested dBound : Nat} {cmd' : SlashCommand}
    (ms : List (String × CogItem)) (cmd : SlashCommand)
    (hmem : ∀ nm2 it2, (nm2, it2) ∈ ms → ∀ sub,
      createCommand bot nm2 it2 (nested + 1) = .ok sub → sub.maxDepth ≤ dBound)
    (hcmd : cmd.maxDepth ≤ 1 + dBound)
    (h : addMembers bot ms nested cmd = .ok cmd') :
    cmd'.maxDepth ≤ 1 + dBound := by
  induction ms generalizing cmd with
  | nil =>
    simp only [addMembers] at h
    cases h
    exact hcmd
  | cons p rest ih =>
    obtain ⟨pn, pi⟩ := p
    simp only [addMembers] at h
    cases hc : createCommand bot pn pi (nested + 1) with
    | error e => simp only [hc] at h; cases h
    | ok sub =>
      simp only [hc] at h
      cases hac : SlashCommand.addChild cmd sub with
      | error e => simp only [hac] at h; cases h
      | ok cmd1 =>
        simp only [hac] at h
        have hsub : sub.maxDepth ≤ dBound := hmem pn pi (by simp) sub hc
        obtain ⟨-, -, hch⟩ := addChild_ok hac
        have h1 : cmd1.maxDepth ≤ 1 + dBound := by
          rw [maxDepth_eq, hch]
          have h2 := childrenMaxDepth_dictInsert cmd.children sub.name sub
          rw [maxDepth_eq] at hcmd
          omega
        exact ih cmd1 (fun nm2 it2 hmm => hmem nm2 it2 (List.mem_cons_of_mem _ hmm)) h1 h

theorem addMembers_invariant {bot : Bot} {nested : Nat} {cmd' : SlashCommand}
    (ms : List (String × CogItem)) (cmd : SlashCommand)
    (hmem : ∀ nm2 it2, (nm2, it2) ∈ ms → ∀ sub,
      createCommand bot nm2 it2 (nested + 1) = .ok sub → sub.invariantOk = true)
    (hh : cmd.handler = none)
    (hch : childrenInvariantOk cmd.children = true)
    (h : addMembers bot ms nested cmd = .ok cmd') :
    cmd'.handler = none ∧ childrenInvariantOk cmd'.children = true := by
  induction ms generalizing cmd with
  | nil =>
    simp only [addMembers] at h
    cases h
    exact ⟨hh, hch⟩
  | cons p rest ih =>
    obtain ⟨pn, pi⟩ := p
    simp only [addMembers] at h
    cases hc : createCommand bot pn pi (nested + 1) with
    | error e => simp only [hc] at h; cases h
    | ok sub =>
      simp only [hc] at h
      cases hac : SlashCommand.addChild cmd sub with
      | error e => simp only [hac] at h; cases h
      | ok cmd1 =>
        simp only [hac] at h
        have hsub : sub.invariantOk = true := hmem pn pi (by simp) sub hc
        obtain ⟨-, hh1, hch1⟩ := addChild_ok hac
        have hch2 : childrenInvariantOk cmd1.children = true := by
          rw [hch1]
          exact childrenInvariantOk_dictInsert cmd.children sub.name sub hch hsub
        exact ih cmd1 (fun nm2 it2 hmm => hmem nm2 it2 (List.mem_cons_of_mem _ hmm))
          hh1 hch2 h

theorem addMembers_not_ok {bot : Bot} {nested : Nat}
    (ms : List (String × CogItem)) (cmd : SlashCommand)
    (hmem : ∃ nm2 it2, (nm2, it2) ∈ ms ∧
      ∀ r, createCommand bot nm2 it2 (nested + 1) ≠ .ok r) :
    ∀ r, addMembers bot ms nested cmd ≠ .ok r := by
  induction ms generalizing cmd with
  | nil =>
    obtain ⟨nm2, it2, hin, -⟩ := hmem
    cases hin
  | cons p rest ih =>
    obtain ⟨pn, pi⟩ := p
    intro r h
    simp only [addMembers] at h
    cases hc : createCommand bot pn pi (nested + 1) with
    | error e => simp only [hc] at h; cases h
    | ok sub =>
      simp only [hc] at h
      obtain ⟨nm2, it2, hin, hne⟩ := hmem
      rcases List.mem_cons.mp hin with heq | hrest
      · injection heq with h1 h2
        subst h1
        subst h2
        exact hne sub hc
      · cases hac : SlashCommand.addChild cmd sub with
        | error e => simp only [hac] at h; cases h
        | ok cmd1 =>
          simp only [hac] at h
          exact ih cmd1 ⟨nm2, it2, hrest, hne⟩ r h

theorem membersDepth_ge_exists (ms : List (String × CogItem)) (k : Nat)
    (h : k + 1 ≤ CogItem.depth.membersDepth ms) :
    ∃ nm2 it2, (nm2, it2) ∈ ms ∧ k ≤ it2.depth := by
  induction ms with
  | nil =>
    simp only [CogItem.depth.membersDepth] at h
    omega
  | cons p rest ih =>
    obtain ⟨pn, pi⟩ := p
    simp only [CogItem.depth.membersDepth] at h
    by_cases hc : k + 1 ≤ 1 + pi.depth
    · exact ⟨pn, pi, by simp, by omega⟩
    · have h2 : k + 1 ≤ CogItem.depth.membersDepth rest := by omega
      obtain ⟨nm2, it2, hin, hd2⟩ := ih h2
      exact ⟨nm2, it2, by simp [hin], hd2⟩

theorem depth_pos_isCls (c : CogItem) (h : 1 ≤ c.depth) : c.isCls = true := by
  cases c with
  | fn doc priv f => simp [CogItem.depth] at h
  | cls doc priv ms => rfl

theorem createCommand_depth_le (bot : Bot) :
    ∀ (nm : String) (item : CogItem) (nested : Nat) (cmd : SlashCommand),
      createCommand bot nm item nested = .ok cmd → cmd.maxDepth ≤ 2 - nested
  | nm, .fn doc priv f, nested, cmd, h => by
    simp only [createCommand] at h
    obtain ⟨-, hch⟩ := make_ok h
    rw [maxDepth_eq, hch]
    exact Nat.zero_le _
  | nm, .cls doc priv ms, nested, cmd, h => by
    simp only [createCommand] at h
    by_cases hn : nested > 1
    · rw [if_pos hn] at h
      cases h
    · rw [if_neg hn] at h
      simp only [SlashCommand.make] at h
      split at h
      · cases h
      · next cmd1 ham =>
        split at h
        · cases h
        · next hlen =>
          cases h
          have hmem : ∀ nm2 it2, (nm2, it2) ∈ ms → ∀ sub,
              createCommand bot nm2 it2 (nested + 1) = .ok sub →
              sub.maxDepth ≤ 2 - (nested + 1) :=
            fun nm2 it2 hin sub hsub =>
              createCommand_depth_le bot nm2 it2 (nested + 1) sub hsub
          have hb := addMembers_bound ms
            (SlashCommand.mk nm (doc.getD "") none [] [] priv [] (getChecks bot []))
            hmem (by rw [maxDepth_eq]; exact Nat.zero_le _) ham
          omega
  termination_by _ item _ _ _ => sizeOf item
  decreasing_by
    have hlt := List.sizeOf_lt_of_mem hin
    simp only [Prod.mk.sizeOf_spec] at hlt
    simp only [CogItem.cls.sizeOf_spec]
    omega

theorem createCommand_invariantOk (bot : Bot) :
    ∀ (nm : String) (item : CogItem) (nested : Nat) (cmd : SlashCommand),
      createCommand bot nm item nested = .ok cmd → cmd.invariantOk = true
  | nm, .fn doc priv f, nested, cmd, h => by
    simp only [createCommand] at h
    obtain ⟨hh, hch⟩ := make_ok h
    rw [invariantOk_eq, hh, hch]
    rfl
  | nm, .cls doc priv ms, nested, cmd, h => by
    simp only [createCommand] at h
    by_cases hn : nested > 1
    · rw [if_pos hn] at h
      cases h
    · rw [if_neg hn] at h
      simp only [SlashCommand.make] at h
      split at h
      · cases h
      · next cmd1 ham =>
        split at h
        · cases h
        · next hlen =>
          cases h
          have hmem : ∀ nm2 it2, (nm2, it2) ∈ ms → ∀ sub,
              createCommand bot nm2 it2 (nested + 1) = .ok sub →
              sub.invariantOk = true :=
            fun nm2 it2 hin sub hsub =>
              createCommand_invariantOk bot nm2 it2 (nested + 1) sub hsub
          obtain ⟨hh1, hch1⟩ := addMembers_invariant ms
            (SlashCommand.mk nm (doc.getD "") none [] [] priv [] (getChecks bot []))
            hmem rfl rfl ham
          cases hc : cmd.children with
          | nil => rw [hc] at hlen; simp at hlen
          | cons a b =>
            rw [invariantOk_eq, hh1, hc]
            rw [hc] at hch1
            simp [hch1]
  termination_by _ item _ _ _ => sizeOf item
  decreasing_by
    have hlt := List.sizeOf_lt_of_mem hin
    simp only [Prod.mk.sizeOf_spec] at hlt
    simp only [CogItem.cls.sizeOf_spec]
    omega

theorem createCommand_deep_not_ok (bot : Bot) :
    ∀ (nm : String) (item : CogItem) (nested : Nat),
      item.isCls = true → 3 ≤ nested + item.depth →
      ∀ r, createCommand bot nm item nested ≠ .ok r
  | nm, .fn doc priv f, nested, hcls, hdepth => by simp [CogItem.isCls] at hcls
  | nm, .cls doc priv ms, nested, hcls, hdepth => by
    intro r h
    simp only [createCommand] at h
    by_cases hn : nested > 1
    · rw [if_pos hn] at h
      cases h
    · rw [if_neg hn] at h
      simp only [SlashCommand.make] at h
      simp only [CogItem.depth] at hdepth
      obtain ⟨nm2, it2, hin, hdep⟩ :=
        membersDepth_ge_exists ms (2 - nested) (by omega)
      have hcls2 : it2.isCls = true := depth_pos_isCls it2 (by omega)
      have hne := createCommand_deep_not_ok bot nm2 it2 (nested + 1) hcls2 (by omega)
      split at h
      · cases h
      · next cmd1 ham =>
        exact addMembers_not_ok ms _ ⟨nm2, it2, hin, hne⟩ cmd1 ham
  termination_by _ item _ _ _ => sizeOf item
  decreasing_by
    have hlt := List.sizeOf_lt_of_mem hin
    simp only [Prod.mk.sizeOf_spec] at hlt
    simp only [CogItem.cls.sizeOf_spec]
    omega

/-! ## Claim C3 — nesting depth bound -/

/-- C3: a successfully constructed command tree has no node deeper than 2
below the root; an item whose member tree would place a node at depth 3 fails
at construction with a construction error (`RecursionError`, raised for any
container scanned at nesting level 2 or beyond), and `load_command` then
propagates the error without inserting anything into the registry. -/
theorem command_depth_bounded (bot : Bot) (nm : String) (item : CogItem) :
    (∀ cmd, createCommand bot nm item 0 = .ok cmd → cmd.maxDepth ≤ 2) ∧
    (3 ≤ item.depth →
      (∃ e, createCommand bot nm item 0 = .error e) ∧
      ∀ reg : Registry, ∃ e, loadCommand bot reg nm item = .error e) := by
  constructor
  · intro cmd h
    have hb := createCommand_depth_le bot nm item 0 cmd h
    simpa using hb
  · intro hd
    have hcls := depth_pos_isCls item (by omega)
    have hne := createCommand_deep_not_ok bot nm item 0 hcls (by omega)
    cases hcc : createCommand bot nm item 0 with
    | ok r => exact absurd hcc (hne r)
    | error e =>
      refine ⟨⟨e, rfl⟩, fun reg => ⟨e, ?_⟩⟩
      simp [loadCommand, hcc]

theorem command_depth_bounded_witness :
    3 ≤ item3.depth ∧
    (∃ e, createCommand bot0 "r" item3 0 = .error e) ∧
    createCommand bot0 "r" item2 0 = .ok cmdEx2 ∧
    cmdEx2.maxDepth ≤ 2 :=
  ⟨by decide,
   ((command_depth_bounded bot0 "r" item3).2 (by decide)).1,
   rfl,
   (command_depth_bounded bot0 "r" item2).1 cmdEx2 rfl⟩

/-! ## Claim C4 — handler xor children -/

/-- C4: every node of a successfully constructed tree has exactly one of
{handler present, children non-empty} (checked tree-wide by `invariantOk`);
`_add_child` refuses to give children to a handler node, and a successful
child addition comes from a handler-less node and leaves it with at least one
child — so no operation produces a node with both a handler and children, and
construction rejects a childless container (`TypeError`). -/
theorem handler_xor_children (bot : Bot) (nm : String) (item : CogItem) :
    (∀ cmd, createCommand bot nm item 0 = .ok cmd → cmd.invariantOk = true) ∧
    (∀ node child node' : SlashCommand, node.addChild child = .ok node' →
      node.handler = none ∧ node'.handler = none ∧ node'.children ≠ []) ∧
    (∀ node child : SlashCommand, node.handler.isSome = true →
      node.addChild child =
        .error (.recursionError "Async command cannot have children.")) := by
  refine ⟨?_, ?_, ?_⟩
  · intro cmd h
    exact createCommand_invariantOk bot nm item 0 cmd h
  · intro node child node' h
    obtain ⟨h1, h2, h3⟩ := addChild_ok h
    refine ⟨h1, h2, ?_⟩
    rw [h3]
    exact dictInsert_ne_nil _ _ _
  · intro node child hs
    obtain ⟨n, d, hd, a, pr, pv, ch, ck⟩ := node
    cases hd with
    | none => simp [SlashCommand.handler] at hs
    | some f => rfl

theorem handler_xor_children_witness :
    createCommand bot0 "r" item2 0 = .ok cmdEx2 ∧ cmdEx2.invariantOk = true :=
  ⟨rfl, (handler_xor_children bot0 "r" item2).1 cmdEx2 rfl⟩

end Pyslash
